import Mathlib

/-!
Shallow embedding of the `axee-visuals-3d` scene engine
(`src/unnamed/part_000` together with `src/ai-entity-shader.ts`).

Machine floats are modelled by `ℚ`; the transcendental functions the code
calls (`Math.cos`, `Math.sin`, GLSL `sin`/`pow`) are passed as explicit
function parameters, and `Math.random` draws are an explicit oracle, so
every definition stays computable and mirrors the source line by line.
-/

namespace AxeeVisuals

/-- A 3-component vector (`THREE.Vector3`) over `ℚ`. -/
structure Vec3 where
  x : ℚ
  y : ℚ
  z : ℚ
deriving DecidableEq, Repr

/-- `THREE.Vector3.lerp(v, alpha)`: each component moves toward `v` by
`alpha` times the remaining gap. -/
def Vec3.lerp (a v : Vec3) (alpha : ℚ) : Vec3 :=
  ⟨a.x + (v.x - a.x) * alpha, a.y + (v.y - a.y) * alpha, a.z + (v.z - a.z) * alpha⟩

/-- Squared euclidean distance between two vectors. -/
def Vec3.distSq (a b : Vec3) : ℚ :=
  (a.x - b.x) ^ 2 + (a.y - b.y) ^ 2 + (a.z - b.z) ^ 2

/-- The `visualization` field of a planet record. -/
structure Visualization where
  color1 : String
  color2 : String
  atmosphereColor : String
  hasRings : Bool
deriving DecidableEq, Repr

/-- The `PlanetData` record received from the orchestration layer. -/
structure PlanetData where
  celestial_body_id : String
  planetName : String
  planetType : String
  visualization : Visualization
deriving DecidableEq, Repr

/-- Which sub-mesh of a planet group a node is. -/
inductive MeshKind where
  | core
  | atmosphere
  | ring
deriving DecidableEq, Repr

/-- One mesh child of a planet group, with the radius used to build its
geometry. -/
structure MeshNode where
  kind : MeshKind
  size : ℚ
deriving DecidableEq, Repr

/-- A live body: the `THREE.Group` built by `createPlanet`, with its
`userData` (`id`, `orbitalRadius`, `orbitSpeed`), its children meshes, its
world position and its accumulated `rotation.y`. -/
structure PlanetGroup where
  id : String
  name : String
  children : List MeshNode
  orbitalRadius : ℚ
  orbitSpeed : ℚ
  position : Vec3
  rotationY : ℚ
deriving DecidableEq, Repr

/-- `pat` is a leading pattern of the character list. -/
def startsWithPat : List Char → List Char → Bool
  | [], _ => true
  | _ :: _, [] => false
  | p :: ps, c :: cs => p == c && startsWithPat ps cs

/-- `pat` occurs as a contiguous pattern somewhere in the character
list (JS `String.includes`). -/
def hasSubPat (pat : List Char) : List Char → Bool
  | [] => pat.isEmpty
  | c :: cs => startsWithPat pat (c :: cs) || hasSubPat pat cs

/-- `data.planetType.toLowerCase().includes('gas')`, on the underlying
character list. -/
def typeIncludesGas (planetType : String) : Bool :=
  hasSubPat "gas".data (planetType.data.map Char.toLower)

/-- `createPlanet(data, index)` from `src/unnamed/part_000`, lines 301-380.
`rnd` is the `Math.random()` draw used for `orbitSpeed` (a value in
`[0, 1)`).  Builds core mesh, atmosphere shell (core radius + 0.1) and,
when `hasRings`, a ring annulus; assigns
`orbitalRadius = 15 + index * 8`, `orbitSpeed = 0.1 + rnd * 0.1`, and
places the group at `x = orbitalRadius`. -/
def createPlanet (data : PlanetData) (index : ℕ) (rnd : ℚ) : PlanetGroup :=
  let planetSize : ℚ := if typeIncludesGas data.planetType then 5/2 else 3/2
  let baseChildren : List MeshNode :=
    [⟨MeshKind.core, planetSize⟩, ⟨MeshKind.atmosphere, planetSize + 1/10⟩]
  let children :=
    if data.visualization.hasRings then
      baseChildren ++ [⟨MeshKind.ring, planetSize + 5/2⟩]
    else baseChildren
  let orbitalRadius : ℚ := 15 + index * 8
  { id := data.celestial_body_id
    name := data.planetName
    children := children
    orbitalRadius := orbitalRadius
    orbitSpeed := 1/10 + rnd * (1/10)
    position := ⟨orbitalRadius, 0, 0⟩
    rotationY := 0 }

/-- The live-body mapping `planets : Map<string, THREE.Group>`, in
insertion order. -/
abbrev PlanetMap := List (String × PlanetGroup)

/-- `planets.has(id)`. -/
def PlanetMap.hasId (m : PlanetMap) (id : String) : Bool :=
  m.any (fun e => e.1 == id)

/-- `planets.get(id)` (first entry with the key, as in a JS `Map`). -/
def PlanetMap.getId (m : PlanetMap) (id : String) : Option PlanetGroup :=
  (m.find? (fun e => e.1 == id)).map Prod.snd

/-- `removePlanet(id)` from `src/unnamed/part_000`, lines 382-398: when the
id is present, detach the group, dispose every mesh of the group, and drop
the entry; returns the new map and the list of release events, one
`(id, mesh)` pair per disposed mesh. -/
def removePlanet (id : String) (m : PlanetMap) :
    PlanetMap × List (String × MeshNode) :=
  match m.find? (fun e => e.1 == id) with
  | some e => (m.eraseP (fun e => e.1 == id), e.2.children.map (fun c => (id, c)))
  | none => (m, [])

/-- The removal loop of `updatePlanets`: iterate over the keys of the live
map and remove every id absent from `currentPlanetIds`.  Returns the new
map, the release events, and the list of ids passed to `removePlanet`. -/
def removeLoop (currentPlanetIds : List String) :
    List String → PlanetMap → PlanetMap × List (String × MeshNode) × List String
  | [], m => (m, [], [])
  | k :: ks, m =>
    if currentPlanetIds.contains k then removeLoop currentPlanetIds ks m
    else
      let r1 := removePlanet k m
      let r2 := removeLoop currentPlanetIds ks r1.1
      (r2.1, r1.2 ++ r2.2.1, k :: r2.2.2)

/-- The creation loop of `updatePlanets`: `planetsData.forEach((d, i) => …)`,
creating a planet (and inserting it at the end of the map, as `Map.set`
does for a fresh key) whenever the id is not yet live.  `rng i` is the
`Math.random()` draw consumed by the creation at snapshot position `i`.
Also returns the list of created ids. -/
def addLoop (rng : ℕ → ℚ) :
    List (ℕ × PlanetData) → PlanetMap → PlanetMap × List String
  | [], m => (m, [])
  | (i, d) :: rest, m =>
    if m.hasId d.celestial_body_id then addLoop rng rest m
    else
      let g := createPlanet d i (rng i)
      let r := addLoop rng rest (m ++ [(d.celestial_body_id, g)])
      (r.1, d.celestial_body_id :: r.2)

/-- `updatePlanets()` from `src/unnamed/part_000`, lines 283-299: compute
the ids of the snapshot, remove live planets whose id is absent, then add
a planet for every snapshot entry whose id is not yet live (with its
snapshot index).  Returns the new map, the resource-release events, the
removed ids and the created ids. -/
def updatePlanets (planetsData : List PlanetData) (rng : ℕ → ℚ) (m : PlanetMap) :
    PlanetMap × List (String × MeshNode) × List String × List String :=
  let currentPlanetIds := planetsData.map (fun p => p.celestial_body_id)
  let r := removeLoop currentPlanetIds (m.map Prod.fst) m
  let a := addLoop rng planetsData.enum r.1
  (a.1, r.2.1, r.2.2, a.2)

/-- Parent information recovered from `intersects[0].object.parent`: the
owning group's `userData.id` (when set) and its `name`. -/
structure ParentInfo where
  userDataId : Option String
  name : String
deriving DecidableEq, Repr

/-- One entry of the array returned by
`raycaster.intersectObjects(planets.values(), true)`: only the fields the
hover logic reads. -/
structure Hit where
  parent : Option ParentInfo
deriving DecidableEq, Repr

/-- The component state touched by `_animate`, `focusOnSelectedPlanet`,
`updatePlanets` and `onCanvasClick`. -/
structure EngineState where
  planets : PlanetMap
  elapsed : ℚ
  targetPosition : Vec3
  targetLookAt : Vec3
  cameraPosition : Vec3
  controlsTarget : Vec3
  hoveredPlanetId : Option String
  cursorPointer : Bool
  tooltipVisible : Bool
  autoRotate : Bool
deriving Repr

/-- The per-frame planet update of `_animate` (lines 444-454):
`rotation.y += delta * 0.5` and
`position = (cos(elapsed*speed)*radius, 0, sin(elapsed*speed)*radius)`,
reading `userData.orbitalRadius` and `userData.orbitSpeed`.  `cosF`/`sinF`
stand for `Math.cos`/`Math.sin`. -/
def animatePlanetGroup (cosF sinF : ℚ → ℚ) (delta elapsed : ℚ)
    (g : PlanetGroup) : PlanetGroup :=
  { g with
    rotationY := g.rotationY + delta * (1/2)
    position :=
      ⟨cosF (elapsed * g.orbitSpeed) * g.orbitalRadius, 0,
       sinF (elapsed * g.orbitSpeed) * g.orbitalRadius⟩ }

/-- The hover block of `_animate` (lines 461-502), applied to the raycast
result: when some hit resolves to a parent whose `userData.id` is a live
key, record the hover (id, pointer cursor, tooltip shown); otherwise clear
the hovered id and reset cursor and tooltip. -/
def hoverUpdate (intersects : List Hit) (s : EngineState) : EngineState :=
  let hovered : Option ParentInfo :=
    match intersects with
    | [] => none
    | hit :: _ =>
      match hit.parent with
      | some p =>
        match p.userDataId with
        | some id => if s.planets.hasId id then some p else none
        | none => none
      | none => none
  match hovered with
  | some p =>
    { s with
      hoveredPlanetId := p.userDataId
      cursorPointer := true
      tooltipVisible := true }
  | none =>
    { s with
      hoveredPlanetId := none
      cursorPointer := false
      tooltipVisible := false }

/-- The hit-test candidate array of `_animate`, line 464:
`Array.from(this.planets.values())` — exactly the live planet groups,
nothing else from the scene. -/
def hitTestCandidates (s : EngineState) : List PlanetGroup :=
  s.planets.map Prod.snd

/-- One tick of `_animate` (lines 437-515): advance the clock, animate
every planet, lerp camera position and controls target toward the
commanded pose with factor `0.05`, and run the hover block on the raycast
result `intersects`. -/
def frameStep (cosF sinF : ℚ → ℚ) (delta : ℚ) (intersects : List Hit)
    (s : EngineState) : EngineState :=
  let elapsed := s.elapsed + delta
  let s1 : EngineState :=
    { s with
      elapsed := elapsed
      planets :=
        s.planets.map (fun e => (e.1, animatePlanetGroup cosF sinF delta elapsed e.2))
      cameraPosition := s.cameraPosition.lerp s.targetPosition (1/20)
      controlsTarget := s.controlsTarget.lerp s.targetLookAt (1/20) }
  hoverUpdate intersects s1

/-- `focusOnSelectedPlanet()` (lines 400-416): with a selected id whose
group is live, command the pose `position + (0, 3, 10)` looking at the
planet; otherwise revert to the default wide view `(0, 15, 40)` looking at
the origin. -/
def focusOnSelectedPlanet (selectedPlanetId : Option String)
    (s : EngineState) : EngineState :=
  let s0 := { s with autoRotate := selectedPlanetId.isNone }
  match selectedPlanetId with
  | some id =>
    match s.planets.getId id with
    | some g =>
      { s0 with
        targetPosition := ⟨g.position.x + 0, g.position.y + 3, g.position.z + 10⟩
        targetLookAt := g.position }
    | none => s0
  | none =>
    { s0 with targetPosition := ⟨0, 15, 40⟩, targetLookAt := ⟨0, 0, 0⟩ }

/-- The event dispatched by `onCanvasClick` (lines 425-435): a
`planet-selected` event carrying `detail.planetId`. -/
structure SelectionEvent where
  planetId : String
deriving DecidableEq, Repr

/-- `onCanvasClick()`: dispatch a selection event exactly when
`hoveredPlanetId` is set, carrying that id. -/
def onCanvasClick (s : EngineState) : Option SelectionEvent :=
  match s.hoveredPlanetId with
  | some id => some ⟨id⟩
  | none => none

/-- The reconcile entry point as a state transition: `updatePlanets`
applied to the component state (the other fields are untouched by
lines 283-299). -/
def reconcileStep (planetsData : List PlanetData) (rng : ℕ → ℚ)
    (s : EngineState) : EngineState :=
  { s with planets := (updatePlanets planetsData rng s.planets).1 }

/-- One externally-driven step of the component: either a `planetsData`
property change (running `updatePlanets`) or one animation frame. -/
inductive Step where
  | reconcile (planetsData : List PlanetData) (rng : ℕ → ℚ)
  | frame (delta : ℚ) (intersects : List Hit)

/-- Apply one step. -/
def stepFn (cosF sinF : ℚ → ℚ) : Step → EngineState → EngineState
  | Step.reconcile planetsData rng, s => reconcileStep planetsData rng s
  | Step.frame delta intersects, s => frameStep cosF sinF delta intersects s

/-- Run a list of steps, first step first. -/
def runSteps (cosF sinF : ℚ → ℚ) : List Step → EngineState → EngineState
  | [], s => s
  | st :: rest, s => runSteps cosF sinF rest (stepFn cosF sinF st s)

/-- `id` stays live at every state reached while running `steps` from `s`. -/
def liveThroughout (cosF sinF : ℚ → ℚ) (id : String) :
    List Step → EngineState → Prop
  | [], _ => True
  | st :: rest, s =>
    (stepFn cosF sinF st s).planets.hasId id = true ∧
      liveThroughout cosF sinF id rest (stepFn cosF sinF st s)

/-! ### The audio-reactive entity fragment program (`src/ai-entity-shader.ts`) -/

/-- GLSL `clamp`. -/
def clampQ (x lo hi : ℚ) : ℚ := min (max x lo) hi

/-- GLSL `smoothstep(0.0, 1.0, x)`. -/
def smoothstep01 (x : ℚ) : ℚ :=
  let t := clampQ x 0 1
  t * t * (3 - 2 * t)

/-- GLSL `fract`. -/
def fractQ (x : ℚ) : ℚ := x - ⌊x⌋

/-- Componentwise vector sum. -/
def Vec3.add (a b : Vec3) : Vec3 := ⟨a.x + b.x, a.y + b.y, a.z + b.z⟩

/-- Vector scaled by a scalar. -/
def Vec3.smul (a : Vec3) (k : ℚ) : Vec3 := ⟨a.x * k, a.y * k, a.z * k⟩

/-- A scalar added to every component (GLSL `vec3 + float`). -/
def Vec3.addScalar (a : Vec3) (k : ℚ) : Vec3 := ⟨a.x + k, a.y + k, a.z + k⟩

/-- GLSL `mix(a, b, t)` with a scalar interpolant. -/
def Vec3.mix (a b : Vec3) (t : ℚ) : Vec3 :=
  ⟨a.x * (1 - t) + b.x * t, a.y * (1 - t) + b.y * t, a.z * (1 - t) + b.z * t⟩

/-- The shader's `rand(co)` hash:
`fract(sin(dot(co, vec2(12.9898, 78.233))) * 43758.5453)`. -/
def glslRand (sinF : ℚ → ℚ) (co : ℚ × ℚ) : ℚ :=
  fractQ (sinF (co.1 * (129898/10000) + co.2 * (78233/1000)) * (4375854530/100000))

/-- What the fragment program produces, keeping the state-dependent
intermediates the spec talks about (`baseColor`, `pulse`) next to the
final color and alpha. -/
structure FragOutput where
  baseColor : Vec3
  pulse : ℚ
  finalColor : Vec3
  alpha : ℚ
deriving DecidableEq, Repr

/-- The entity fragment shader `fs` of `src/ai-entity-shader.ts`, lines
20-79.  `sinF` is GLSL `sin`, `powF` is GLSL `pow`, `tex u` is the red
channel of `texture(uAudioData, vec2(u, 0.5))`, `dotNV` is
`dot(normalize(vViewPosition), vNormal)` (a geometry-derived varying), and
`vUv` the interpolated UV coordinate. -/
def entityFrag (sinF : ℚ → ℚ) (powF : ℚ → ℚ → ℚ) (tex : ℚ → ℚ)
    (uTime : ℚ) (uState : ℤ) (dotNV : ℚ) (vUv : ℚ × ℚ) : FragOutput :=
  let fresnel := powF (1 - dotNV) (5/2)
  let audioLevel :=
    ((List.range 32).map (fun i => tex ((i : ℚ) / 32))).sum / 32
  let highFreq := tex (8/10)
  let lowFreq := tex (1/10)
  let bands0 := sinF (vUv.2 * (20 + lowFreq * 10) + uTime * (-(15/10)))
  let bands1 := smoothstep01 bands0
  let bands := bands1 * (1/2 + highFreq * (25/10))
  let baseColor : Vec3 :=
    if uState = 1 then ⟨2/10, 8/10, 1⟩
    else if uState = 2 then ⟨2/10, 1, 5/10⟩
    else ⟨1/10, 5/10, 1⟩
  let pulse : ℚ := if uState = 2 then 1 + sinF (uTime * 8) * (15/100) else 1
  let glowColor := (baseColor.smul (5/10)).mix ⟨5/10, 1, 1⟩ bands
  let final1 := glowColor.smul (2/10 + audioLevel * (15/10))
  let final2 := final1.add (baseColor.smul (fresnel * (5/10 + audioLevel * 2)))
  let final3 := final2.smul pulse
  let noise := glslRand sinF (vUv.1 + uTime * (1/100), vUv.2 + uTime * (1/100))
  let finalColor := final3.addScalar (noise * (5/100))
  let alpha := clampQ (fresnel * (3/10 + audioLevel * (7/10))) 0 1
  { baseColor := baseColor, pulse := pulse, finalColor := finalColor, alpha := alpha }

/-! ### Teardown (`disconnectedCallback`, lines 110-132) -/

/-- The observable teardown actions, in the order the callback performs
them. -/
inductive TeardownEvent where
  | removeResizeListener
  | removePointerMoveListener
  | removeClickListener
  | cancelFrame
  | stopAudioTrack
  | closeAudioContext
  | disposeControls
  | disposeGeometry (owner : String)
  | disposeMaterial (owner : String)
  | disposeRenderer
deriving DecidableEq, Repr

/-- The scene-graph object classes the disposal traversal distinguishes
(`instanceof THREE.Mesh`, `instanceof THREE.LineSegments`, everything
else). -/
inductive NodeClass where
  | mesh
  | lineSegments
  | points
  | group
  | light
deriving DecidableEq, Repr

/-- One scene-graph node with its children, as seen by
`scene.traverse`. -/
inductive SceneNode where
  | node (name : String) (cls : NodeClass) (children : List SceneNode)

/-- Printable name of a planet sub-mesh. -/
def meshKindName : MeshKind → String
  | MeshKind.core => "core"
  | MeshKind.atmosphere => "atmosphere"
  | MeshKind.ring => "ring"

/-- The scene-graph subtree of one live body: the group with its mesh
children. -/
def planetGroupNode (g : PlanetGroup) : SceneNode :=
  SceneNode.node g.id NodeClass.group
    (g.children.map (fun c =>
      SceneNode.node (g.id ++ "/" ++ meshKindName c.kind) NodeClass.mesh []))

/-- The scene's children in insertion order (`init()` lines 158-254 adds
starfield, star, AI entity, data trails, neural network and the two
lights; `createPlanet` appends each live body's group afterwards). -/
def sceneChildren (planets : PlanetMap) : List SceneNode :=
  [SceneNode.node "starfield" NodeClass.points [],
   SceneNode.node "star" NodeClass.mesh [],
   SceneNode.node "aiEntity" NodeClass.mesh [],
   SceneNode.node "dataTrails" NodeClass.group [],
   SceneNode.node "neuralNetwork" NodeClass.lineSegments [],
   SceneNode.node "pointLight" NodeClass.light [],
   SceneNode.node "ambientLight" NodeClass.light []] ++
    planets.map (fun e => planetGroupNode e.2)

/-- The disposal performed for one visited object: geometry and material
are released only for `Mesh` and `LineSegments` instances. -/
def disposeNodeEvents (name : String) (cls : NodeClass) : List TeardownEvent :=
  match cls with
  | NodeClass.mesh =>
    [TeardownEvent.disposeGeometry name, TeardownEvent.disposeMaterial name]
  | NodeClass.lineSegments =>
    [TeardownEvent.disposeGeometry name, TeardownEvent.disposeMaterial name]
  | _ => []

mutual

/-- `scene.traverse` over one node: visit the node, then its children. -/
def traverseNode : SceneNode → List TeardownEvent
  | SceneNode.node name cls children =>
    disposeNodeEvents name cls ++ traverseList children

/-- `scene.traverse` over a child list, first child first. -/
def traverseList : List SceneNode → List TeardownEvent
  | [] => []
  | n :: rest => traverseNode n ++ traverseList rest

end

/-- The component fields `disconnectedCallback` touches that can be
absent (`?.`): the mic stream (with its track count), the audio context,
the controls, the scene and the renderer. -/
structure TeardownState where
  micTrackCount : Option ℕ
  hasAudioContext : Bool
  hasControls : Bool
  scenePlanets : Option PlanetMap
  hasRenderer : Bool

/-- `disconnectedCallback()` (lines 110-132) as its sequence of observable
actions: remove the resize listener, remove the pointermove and click
listeners, cancel the scheduled animation frame, stop every mic track,
close the audio context, dispose the controls, traverse the scene
disposing geometry and material of every `Mesh`/`LineSegments`, and
dispose the renderer. -/
def disconnectedCallbackEvents (ts : TeardownState) : List TeardownEvent :=
  [TeardownEvent.removeResizeListener,
   TeardownEvent.removePointerMoveListener,
   TeardownEvent.removeClickListener,
   TeardownEvent.cancelFrame] ++
  (match ts.micTrackCount with
   | some n => List.replicate n TeardownEvent.stopAudioTrack
   | none => []) ++
  (if ts.hasAudioContext then [TeardownEvent.closeAudioContext] else []) ++
  (if ts.hasControls then [TeardownEvent.disposeControls] else []) ++
  (match ts.scenePlanets with
   | some planets => traverseList (sceneChildren planets)
   | none => []) ++
  (if ts.hasRenderer then [TeardownEvent.disposeRenderer] else [])

/-! ### Specification vocabulary -/

/-- The id list of a snapshot (the `currentPlanetIds` of `updatePlanets`). -/
def snapshotIds (planetsData : List PlanetData) : List String :=
  planetsData.map (fun p => p.celestial_body_id)

/-- The live map's keys are pairwise distinct (a JS `Map` invariant). -/
abbrev KeysNodup (m : PlanetMap) : Prop := (m.map Prod.fst).Nodup

/-- The orbital position the spec promises at total elapsed time `t`:
`(cos(t·orbitSpeed)·orbitalRadius, 0, sin(t·orbitSpeed)·orbitalRadius)`. -/
def posFormula (cosF sinF : ℚ → ℚ) (t : ℚ) (g : PlanetGroup) : Vec3 :=
  ⟨cosF (t * g.orbitSpeed) * g.orbitalRadius, 0,
   sinF (t * g.orbitSpeed) * g.orbitalRadius⟩

/-- Run a sequence of animation frames with the given inter-frame delays
(and no pointer intersections). -/
def runFrames (cosF sinF : ℚ → ℚ) (ds : List ℚ) (s : EngineState) : EngineState :=
  runSteps cosF sinF (ds.map (fun d => Step.frame d [])) s

/-- Squared distance from the current camera pose (position and look-at)
to the commanded pose. -/
def poseDistSq (s : EngineState) : ℚ :=
  s.cameraPosition.distSq s.targetPosition + s.controlsTarget.distSq s.targetLookAt

/-- `b` lies between `a` and `c` (inclusive). -/
def betweenQ (a b c : ℚ) : Prop := min a c ≤ b ∧ b ≤ max a c

/-! ### Concrete sample data -/

/-- A fixed stand-in for the trigonometric oracles in concrete runs. -/
def zeroF : ℚ → ℚ := fun _ => 0

/-- A ringless terrestrial record. -/
def recA : PlanetData :=
  ⟨"A", "Alpha", "terrestrial", ⟨"#ff0000", "#00ff00", "#0000ff", false⟩⟩

/-- A ringed gas giant record. -/
def recB : PlanetData :=
  ⟨"B", "Beta", "gas giant", ⟨"#112233", "#445566", "#778899", true⟩⟩

/-- A fixed random oracle. -/
def rng0 : ℕ → ℚ := fun _ => 1/2

/-- The body built from `recA` at snapshot index 0. -/
def sampleGroup : PlanetGroup := createPlanet recA 0 (1/2)

/-- A component state with one live body, a hover on it, and a camera away
from its commanded pose. -/
def sampleState : EngineState :=
  { planets := [("A", sampleGroup)]
    elapsed := 0
    targetPosition := ⟨0, 15, 40⟩
    targetLookAt := ⟨0, 0, 0⟩
    cameraPosition := ⟨0, 0, 0⟩
    controlsTarget := ⟨1, 0, 0⟩
    hoveredPlanetId := some "A"
    cursorPointer := true
    tooltipVisible := true
    autoRotate := true }

/-- A raycast hit resolving to the sample body's group. -/
def sampleHit : Hit := ⟨some ⟨some "A", "Alpha"⟩⟩

/-! ## Basic lemmas about the live map -/

lemma hasId_iff_mem_keys (m : PlanetMap) (id : String) :
    m.hasId id = true ↔ id ∈ m.map Prod.fst := by
  simp [PlanetMap.hasId, List.any_eq_true, List.mem_map]

lemma hasId_append (m l : PlanetMap) (id : String) :
    (m ++ l).hasId id = (m.hasId id || l.hasId id) := by
  simp [PlanetMap.hasId, List.any_append]

lemma getId_isSome_iff_hasId (m : PlanetMap) (id : String) :
    (m.getId id).isSome = m.hasId id := by
  induction m with
  | nil => rfl
  | cons e m ih =>
    by_cases h : e.1 = id
    · simp [PlanetMap.getId, PlanetMap.hasId, List.find?_cons, h]
    · have hb : (e.1 == id) = false := beq_eq_false_iff_ne.mpr h
      simpa [PlanetMap.getId, PlanetMap.hasId, List.find?_cons, hb] using ih

lemma getId_append_left (m l : PlanetMap) (id : String)
    (h : m.hasId id = true) : (m ++ l).getId id = m.getId id := by
  have hs : (m.getId id).isSome = true := (getId_isSome_iff_hasId m id).trans h
  unfold PlanetMap.getId at hs ⊢
  rw [List.find?_append]
  cases hf : m.find? (fun e => e.1 == id) with
  | none => rw [hf] at hs; simp at hs
  | some e => simp

lemma getId_eraseP_ne (m : PlanetMap) (k id : String) (h : k ≠ id) :
    PlanetMap.getId (m.eraseP (fun e => e.1 == k)) id = PlanetMap.getId m id := by
  induction m with
  | nil => rfl
  | cons e m ih =>
    by_cases hek : e.1 = k
    · have hne : e.1 ≠ id := by rw [hek]; exact h
      simp [List.eraseP_cons, beq_iff_eq.mpr hek, PlanetMap.getId, List.find?_cons,
        beq_eq_false_iff_ne.mpr hne]
    · have hb : (e.1 == k) = false := beq_eq_false_iff_ne.mpr hek
      by_cases hei : e.1 = id
      · simp [List.eraseP_cons, hb, PlanetMap.getId, List.find?_cons,
          beq_iff_eq.mpr hei]
      · simpa [List.eraseP_cons, hb, PlanetMap.getId, List.find?_cons,
          beq_eq_false_iff_ne.mpr hei] using ih

/-! ## The removal half of `updatePlanets` -/

lemma eraseP_key_eq_filter (k : String) (m : PlanetMap) (hnd : KeysNodup m) :
    m.eraseP (fun e => e.1 == k) = m.filter (fun e => !(e.1 == k)) := by
  induction m with
  | nil => rfl
  | cons e m ih =>
    unfold KeysNodup at hnd
    rw [List.map_cons, List.nodup_cons] at hnd
    obtain ⟨hnotin, hnd'⟩ := hnd
    by_cases hk : e.1 = k
    · have hall : ∀ x ∈ m, (!(x.1 == k)) = true := by
        intro x hx
        have hxk : x.1 ≠ k := by
          intro hxk
          exact hnotin (by
            rw [hk, ← hxk]
            exact List.mem_map_of_mem Prod.fst hx)
        simp [beq_eq_false_iff_ne.mpr hxk]
      rw [List.eraseP_cons, List.filter_cons]
      simp [beq_iff_eq.mpr hk]
      exact (List.filter_eq_self.mpr hall).symm
    · simpa [List.eraseP_cons, beq_eq_false_iff_ne.mpr hk, List.filter_cons]
        using ih hnd'

lemma keysNodup_filter (m : PlanetMap) (p : String × PlanetGroup → Bool)
    (hnd : KeysNodup m) : KeysNodup (m.filter p) :=
  List.Nodup.sublist (List.Sublist.map Prod.fst (List.filter_sublist m)) hnd

lemma removePlanet_fst (k : String) (m : PlanetMap) (hnd : KeysNodup m) :
    (removePlanet k m).1 = m.filter (fun e => !(e.1 == k)) := by
  unfold removePlanet
  cases hf : m.find? (fun e => e.1 == k) with
  | some e => simpa using eraseP_key_eq_filter k m hnd
  | none =>
    have hall := List.find?_eq_none.mp hf
    simp only []
    exact (List.filter_eq_self.mpr (by
      intro x hx
      simpa using hall x hx)).symm

lemma removePlanet_fst_sublist (k : String) (m : PlanetMap) :
    List.Sublist (removePlanet k m).1 m := by
  unfold removePlanet
  cases hf : m.find? (fun e => e.1 == k) with
  | some e => simpa using List.eraseP_sublist m
  | none => simp

lemma removeLoop_fst_sublist (cur : List String) :
    ∀ (ks : List String) (m : PlanetMap), List.Sublist (removeLoop cur ks m).1 m := by
  intro ks
  induction ks with
  | nil => intro m; simp [removeLoop]
  | cons k ks ih =>
    intro m
    by_cases h : k ∈ cur
    · simpa [removeLoop, h] using ih m
    · simpa [removeLoop, h] using
        List.Sublist.trans (ih (removePlanet k m).1) (removePlanet_fst_sublist k m)

lemma removeLoop_keysNodup (cur : List String) (ks : List String) (m : PlanetMap)
    (hnd : KeysNodup m) : KeysNodup (removeLoop cur ks m).1 :=
  List.Nodup.sublist (List.Sublist.map Prod.fst (removeLoop_fst_sublist cur ks m)) hnd

lemma removeLoop_fst (cur : List String) :
    ∀ (ks : List String) (m : PlanetMap), KeysNodup m →
      (removeLoop cur ks m).1 =
        m.filter (fun e => cur.contains e.1 || !(ks.contains e.1)) := by
  intro ks
  induction ks with
  | nil =>
    intro m _
    simp [removeLoop]
  | cons k ks ih =>
    intro m hnd
    by_cases h : k ∈ cur
    · rw [show removeLoop cur (k :: ks) m = removeLoop cur ks m by
        simp [removeLoop, h]]
      rw [ih m hnd]
      apply List.filter_congr
      intro x _
      by_cases hxk : x.1 = k
      · simp [hxk, h]
      · simp [hxk]
    · have hstep : (removeLoop cur (k :: ks) m).1 =
          (removeLoop cur ks (removePlanet k m).1).1 := by
        simp [removeLoop, h]
      rw [hstep, removePlanet_fst k m hnd,
        ih (m.filter (fun e => !(e.1 == k))) (keysNodup_filter m _ hnd),
        List.filter_filter]
      apply List.filter_congr
      intro x _
      by_cases hxk : x.1 = k
      · simp [hxk, h]
      · simp [hxk]

lemma removeLoop_removed (cur : List String) :
    ∀ (ks : List String) (m : PlanetMap),
      (removeLoop cur ks m).2.2 = ks.filter (fun k => !(cur.contains k)) := by
  intro ks
  induction ks with
  | nil => intro m; rfl
  | cons k ks ih =>
    intro m
    by_cases h : k ∈ cur
    · simp [removeLoop, h, List.filter_cons, ih m]
    · simp [removeLoop, h, List.filter_cons, ih (removePlanet k m).1]

lemma getId_removePlanet_ne (k id : String) (m : PlanetMap) (h : k ≠ id) :
    PlanetMap.getId (removePlanet k m).1 id = PlanetMap.getId m id := by
  unfold removePlanet
  cases hf : m.find? (fun e => e.1 == k) with
  | some e => simpa using getId_eraseP_ne m k id h
  | none => rfl

lemma removeLoop_getId (cur : List String) (id : String)
    (hid : id ∈ cur) :
    ∀ (ks : List String) (m : PlanetMap),
      PlanetMap.getId (removeLoop cur ks m).1 id = PlanetMap.getId m id := by
  intro ks
  induction ks with
  | nil => intro m; rfl
  | cons k ks ih =>
    intro m
    by_cases h : k ∈ cur
    · simpa [removeLoop, h] using ih m
    · have hk : k ≠ id := by
        intro hk
        rw [hk] at h
        exact h hid
      have hstep : (removeLoop cur (k :: ks) m).1 =
          (removeLoop cur ks (removePlanet k m).1).1 := by
        simp [removeLoop, h]
      rw [hstep, ih (removePlanet k m).1, getId_removePlanet_ne k id m hk]

lemma removeLoop_rels_not_retained (cur : List String) :
    ∀ (ks : List String) (m : PlanetMap) (id : String) (c : MeshNode),
      (id, c) ∈ (removeLoop cur ks m).2.1 → id ∉ cur := by
  intro ks
  induction ks with
  | nil => intro m id c hmem; simp [removeLoop] at hmem
  | cons k ks ih =>
    intro m id c hmem
    by_cases h : k ∈ cur
    · rw [show (removeLoop cur (k :: ks) m).2.1 = (removeLoop cur ks m).2.1 by
        simp [removeLoop, h]] at hmem
      exact ih m id c hmem
    · rw [show (removeLoop cur (k :: ks) m).2.1 =
          (removePlanet k m).2 ++ (removeLoop cur ks (removePlanet k m).1).2.1 by
        simp [removeLoop, h]] at hmem
      rcases List.mem_append.mp hmem with hmem | hmem
      · have hidk : id = k := by
          unfold removePlanet at hmem
          cases hf : m.find? (fun e => e.1 == k) with
          | some e =>
            rw [hf] at hmem
            simp at hmem
            exact hmem.2.symm
          | none => rw [hf] at hmem; simp at hmem
        rw [hidk]
        exact h
      · exact ih (removePlanet k m).1 id c hmem

/-! ## The creation half of `updatePlanets` -/

lemma getId_append_right_of_not_has (m l : PlanetMap) (id : String)
    (h : PlanetMap.hasId m id = false) :
    PlanetMap.getId (m ++ l) id = PlanetMap.getId l id := by
  unfold PlanetMap.getId
  rw [List.find?_append]
  have hnone : m.find? (fun e => e.1 == id) = none := by
    rw [List.find?_eq_none]
    intro x hx
    have := List.any_eq_false.mp h x hx
    simpa using this
  rw [hnone]
  rfl

lemma addLoop_fst_hasId (rng : ℕ → ℚ) (id : String) :
    ∀ (l : List (ℕ × PlanetData)) (m : PlanetMap),
      PlanetMap.hasId (addLoop rng l m).1 id =
        (m.hasId id || l.any (fun e => e.2.celestial_body_id == id)) := by
  intro l
  induction l with
  | nil => intro m; simp [addLoop]
  | cons p rest ih =>
    obtain ⟨i, d⟩ := p
    intro m
    by_cases hd : PlanetMap.hasId m d.celestial_body_id = true
    · rw [show addLoop rng ((i, d) :: rest) m = addLoop rng rest m by
        simp [addLoop, hd]]
      rw [ih m, List.any_cons]
      by_cases hdi : d.celestial_body_id = id
      · have hmid : PlanetMap.hasId m id = true := by rw [← hdi]; exact hd
        simp [hmid]
      · simp [beq_eq_false_iff_ne.mpr hdi]
    · rw [show addLoop rng ((i, d) :: rest) m =
          ((addLoop rng rest
            (m ++ [(d.celestial_body_id, createPlanet d i (rng i))])).1,
           d.celestial_body_id ::
            (addLoop rng rest
              (m ++ [(d.celestial_body_id, createPlanet d i (rng i))])).2) by
        simp [addLoop, hd]]
      rw [ih, hasId_append, List.any_cons]
      simp [PlanetMap.hasId, Bool.or_assoc]

lemma addLoop_created_mem (rng : ℕ → ℚ) (id : String) :
    ∀ (l : List (ℕ × PlanetData)) (m : PlanetMap),
      id ∈ (addLoop rng l m).2 ↔
        (PlanetMap.hasId m id = false ∧
          l.any (fun e => e.2.celestial_body_id == id) = true) := by
  intro l
  induction l with
  | nil => intro m; simp [addLoop]
  | cons p rest ih =>
    obtain ⟨i, d⟩ := p
    intro m
    by_cases hd : PlanetMap.hasId m d.celestial_body_id = true
    · rw [show addLoop rng ((i, d) :: rest) m = addLoop rng rest m by
        simp [addLoop, hd]]
      by_cases hdi : d.celestial_body_id = id
      · subst hdi
        simp [ih m, hd]
      · simp [ih m, beq_eq_false_iff_ne.mpr hdi]
    · have hd' : PlanetMap.hasId m d.celestial_body_id = false := by
        simpa using hd
      rw [show addLoop rng ((i, d) :: rest) m =
          ((addLoop rng rest
            (m ++ [(d.celestial_body_id, createPlanet d i (rng i))])).1,
           d.celestial_body_id ::
            (addLoop rng rest
              (m ++ [(d.celestial_body_id, createPlanet d i (rng i))])).2) by
        simp [addLoop, hd]]
      by_cases hdi : d.celestial_body_id = id
      · subst hdi
        simp [hd']
      · have hb := beq_eq_false_iff_ne.mpr hdi
        have hdi' : ¬ id = d.celestial_body_id := fun h => hdi h.symm
        simp only [List.mem_cons]
        rw [ih]
        rw [hasId_append]
        simp [hdi', hb, PlanetMap.hasId]

lemma addLoop_getId_preserve (rng : ℕ → ℚ) (id : String) :
    ∀ (l : List (ℕ × PlanetData)) (m : PlanetMap),
      PlanetMap.hasId m id = true →
      PlanetMap.getId (addLoop rng l m).1 id = PlanetMap.getId m id := by
  intro l
  induction l with
  | nil => intro m _; rfl
  | cons p rest ih =>
    obtain ⟨i, d⟩ := p
    intro m hm
    by_cases hd : PlanetMap.hasId m d.celestial_body_id = true
    · rw [show addLoop rng ((i, d) :: rest) m = addLoop rng rest m by
        simp [addLoop, hd]]
      exact ih m hm
    · rw [show (addLoop rng ((i, d) :: rest) m).1 =
          (addLoop rng rest
            (m ++ [(d.celestial_body_id, createPlanet d i (rng i))])).1 by
        simp [addLoop, hd]]
      have hm' : PlanetMap.hasId
          (m ++ [(d.celestial_body_id, createPlanet d i (rng i))]) id = true := by
        rw [hasId_append, hm]
        rfl
      rw [ih _ hm', getId_append_left _ _ _ hm]

lemma addLoop_getId_new (rng : ℕ → ℚ) (id : String) :
    ∀ (l : List (ℕ × PlanetData)) (m : PlanetMap) (i : ℕ) (d : PlanetData),
      PlanetMap.hasId m id = false →
      l.find? (fun e => e.2.celestial_body_id == id) = some (i, d) →
      PlanetMap.getId (addLoop rng l m).1 id = some (createPlanet d i (rng i)) := by
  intro l
  induction l with
  | nil => intro m i d _ hf; simp at hf
  | cons p rest ih =>
    obtain ⟨j, e⟩ := p
    intro m i d hm hf
    by_cases hje : e.celestial_body_id = id
    · have hbeq : (e.celestial_body_id == id) = true := beq_iff_eq.mpr hje
      rw [List.find?_cons, hbeq] at hf
      simp at hf
      obtain ⟨hji, hed⟩ := hf
      subst hji
      subst hed
      have hde : PlanetMap.hasId m e.celestial_body_id = false := by
        rw [hje]; exact hm
      rw [show (addLoop rng ((j, e) :: rest) m).1 =
          (addLoop rng rest
            (m ++ [(e.celestial_body_id, createPlanet e j (rng j))])).1 by
        simp [addLoop, hde]]
      have hm' : PlanetMap.hasId
          (m ++ [(e.celestial_body_id, createPlanet e j (rng j))]) id = true := by
        rw [hasId_append, hm]
        simp [PlanetMap.hasId, hje]
      rw [addLoop_getId_preserve rng id rest _ hm',
        getId_append_right_of_not_has m _ id hm]
      simp [PlanetMap.getId, List.find?, hje]
    · have hbeq : (e.celestial_body_id == id) = false := beq_eq_false_iff_ne.mpr hje
      rw [List.find?_cons, hbeq] at hf
      by_cases hd : PlanetMap.hasId m e.celestial_body_id = true
      · rw [show addLoop rng ((j, e) :: rest) m = addLoop rng rest m by
          simp [addLoop, hd]]
        exact ih m i d hm hf
      · rw [show (addLoop rng ((j, e) :: rest) m).1 =
            (addLoop rng rest
              (m ++ [(e.celestial_body_id, createPlanet e j (rng j))])).1 by
          simp [addLoop, hd]]
        have hm' : PlanetMap.hasId
            (m ++ [(e.celestial_body_id, createPlanet e j (rng j))]) id = false := by
          rw [hasId_append, hm]
          simp [PlanetMap.hasId, hbeq]
        exact ih _ i d hm' hf

lemma addLoop_keysNodup (rng : ℕ → ℚ) :
    ∀ (l : List (ℕ × PlanetData)) (m : PlanetMap),
      KeysNodup m → KeysNodup (addLoop rng l m).1 := by
  intro l
  induction l with
  | nil => intro m h; exact h
  | cons p rest ih =>
    obtain ⟨i, d⟩ := p
    intro m hnd
    by_cases hd : PlanetMap.hasId m d.celestial_body_id = true
    · rw [show addLoop rng ((i, d) :: rest) m = addLoop rng rest m by
        simp [addLoop, hd]]
      exact ih m hnd
    · rw [show (addLoop rng ((i, d) :: rest) m).1 =
          (addLoop rng rest
            (m ++ [(d.celestial_body_id, createPlanet d i (rng i))])).1 by
        simp [addLoop, hd]]
      apply ih
      unfold KeysNodup at hnd ⊢
      rw [List.map_append, List.nodup_append]
      refine ⟨hnd, List.nodup_singleton _, ?_⟩
      intro x hx hx'
      simp at hx'
      subst hx'
      exact hd ((hasId_iff_mem_keys m _).mpr hx)

lemma addLoop_created_nodup (rng : ℕ → ℚ) :
    ∀ (l : List (ℕ × PlanetData)) (m : PlanetMap),
      ((addLoop rng l m).2).Nodup := by
  intro l
  induction l with
  | nil => intro m; simp [addLoop]
  | cons p rest ih =>
    obtain ⟨i, d⟩ := p
    intro m
    by_cases hd : PlanetMap.hasId m d.celestial_body_id = true
    · rw [show addLoop rng ((i, d) :: rest) m = addLoop rng rest m by
        simp [addLoop, hd]]
      exact ih m
    · rw [show (addLoop rng ((i, d) :: rest) m).2 =
          d.celestial_body_id ::
            (addLoop rng rest
              (m ++ [(d.celestial_body_id, createPlanet d i (rng i))])).2 by
        simp [addLoop, hd]]
      rw [List.nodup_cons]
      refine ⟨?_, ih _⟩
      intro hmem
      have := (addLoop_created_mem rng d.celestial_body_id rest _).mp hmem
      rw [hasId_append] at this
      simp [PlanetMap.hasId] at this

/-! ## `updatePlanets` as a whole -/

lemma mem_snapshotIds_iff_any (S : List PlanetData) (id : String) :
    id ∈ snapshotIds S ↔ S.any (fun d => d.celestial_body_id == id) = true := by
  simp [snapshotIds, List.any_eq_true, List.mem_map]

lemma enum_any_id (S : List PlanetData) (id : String) :
    S.enum.any (fun e => e.2.celestial_body_id == id) =
      S.any (fun d => d.celestial_body_id == id) := by
  rcases hS : S.any (fun d => d.celestial_body_id == id) with _ | _
  · rw [List.any_eq_false] at hS
    rw [List.any_eq_false]
    intro e he
    exact hS e.2 (List.snd_mem_of_mem_enum he)
  · rw [List.any_eq_true] at hS ⊢
    obtain ⟨d, hd, hp⟩ := hS
    obtain ⟨i, hi⟩ := List.mem_iff_getElem?.mp hd
    exact ⟨(i, d), List.mem_enum_iff_getElem?.mpr (by simpa using hi), hp⟩

lemma removeLoop_fst_hasId (cur : List String) (m : PlanetMap)
    (hnd : KeysNodup m) (id : String) :
    PlanetMap.hasId (removeLoop cur (m.map Prod.fst) m).1 id = true ↔
      (id ∈ m.map Prod.fst ∧ id ∈ cur) := by
  rw [hasId_iff_mem_keys, removeLoop_fst cur _ m hnd]
  constructor
  · intro hmem
    rw [List.mem_map] at hmem
    obtain ⟨e, he, rfl⟩ := hmem
    rw [List.mem_filter] at he
    obtain ⟨hem, hpred⟩ := he
    have hkey : e.1 ∈ m.map Prod.fst := List.mem_map_of_mem _ hem
    refine ⟨hkey, ?_⟩
    simp at hpred
    rcases hpred with h | h
    · exact h
    · exact absurd (by simpa using hem) (h e.2)
  · rintro ⟨hkeys, hcur⟩
    rw [List.mem_map] at hkeys
    obtain ⟨e, hem, rfl⟩ := hkeys
    apply List.mem_map_of_mem
    rw [List.mem_filter]
    exact ⟨hem, by simp [hcur]⟩

lemma updatePlanets_live_ids (S : List PlanetData) (rng : ℕ → ℚ) (m : PlanetMap)
    (hnd : KeysNodup m) (id : String) :
    PlanetMap.hasId (updatePlanets S rng m).1 id = true ↔ id ∈ snapshotIds S := by
  have key : PlanetMap.hasId (updatePlanets S rng m).1 id =
      (PlanetMap.hasId (removeLoop (S.map (fun p => p.celestial_body_id))
        (m.map Prod.fst) m).1 id ||
       S.enum.any (fun e => e.2.celestial_body_id == id)) := by
    simp [updatePlanets, addLoop_fst_hasId]
  rw [key, Bool.or_eq_true, enum_any_id]
  have hr := removeLoop_fst_hasId (S.map (fun p => p.celestial_body_id)) m hnd id
  constructor
  · rintro (h | h)
    · exact (hr.mp h).2
    · exact (mem_snapshotIds_iff_any S id).mpr h
  · intro h
    exact Or.inr ((mem_snapshotIds_iff_any S id).mp h)

lemma updatePlanets_removed (S : List PlanetData) (rng : ℕ → ℚ) (m : PlanetMap) :
    (updatePlanets S rng m).2.2.1 =
      (m.map Prod.fst).filter
        (fun k => !((S.map (fun p => p.celestial_body_id)).contains k)) := by
  simp [updatePlanets, removeLoop_removed]

lemma updatePlanets_created_mem (S : List PlanetData) (rng : ℕ → ℚ)
    (m : PlanetMap) (hnd : KeysNodup m) (id : String) :
    id ∈ (updatePlanets S rng m).2.2.2 ↔
      (id ∈ snapshotIds S ∧ PlanetMap.hasId m id = false) := by
  have key : (updatePlanets S rng m).2.2.2 =
      (addLoop rng S.enum
        (removeLoop (S.map (fun p => p.celestial_body_id))
          (m.map Prod.fst) m).1).2 := by
    simp [updatePlanets]
  rw [key, addLoop_created_mem, enum_any_id, ← mem_snapshotIds_iff_any]
  have hr := removeLoop_fst_hasId (S.map (fun p => p.celestial_body_id)) m hnd id
  constructor
  · rintro ⟨hfalse, hmem⟩
    refine ⟨hmem, ?_⟩
    rw [← Bool.not_eq_true, hr] at hfalse
    rw [← Bool.not_eq_true, hasId_iff_mem_keys]
    intro hkeys
    exact hfalse ⟨hkeys, hmem⟩
  · rintro ⟨hmem, hfalse⟩
    refine ⟨?_, hmem⟩
    rw [← Bool.not_eq_true, hr]
    rintro ⟨hkeys, _⟩
    rw [← Bool.not_eq_true, hasId_iff_mem_keys] at hfalse
    exact hfalse hkeys

lemma updatePlanets_getId_retained (S : List PlanetData) (rng : ℕ → ℚ)
    (m : PlanetMap) (id : String) (hm : PlanetMap.hasId m id = true)
    (hid : id ∈ snapshotIds S) :
    PlanetMap.getId (updatePlanets S rng m).1 id = PlanetMap.getId m id := by
  have hid' : id ∈ S.map (fun p => p.celestial_body_id) := hid
  have key : (updatePlanets S rng m).1 =
      (addLoop rng S.enum
        (removeLoop (S.map (fun p => p.celestial_body_id))
          (m.map Prod.fst) m).1).1 := by
    simp [updatePlanets]
  have hrem := removeLoop_getId (S.map (fun p => p.celestial_body_id)) id hid'
    (m.map Prod.fst) m
  have hhas : PlanetMap.hasId
      (removeLoop (S.map (fun p => p.celestial_body_id))
        (m.map Prod.fst) m).1 id = true := by
    rw [← getId_isSome_iff_hasId, hrem, getId_isSome_iff_hasId]
    exact hm
  rw [key, addLoop_getId_preserve rng id S.enum _ hhas, hrem]

lemma updatePlanets_keysNodup (S : List PlanetData) (rng : ℕ → ℚ)
    (m : PlanetMap) (hnd : KeysNodup m) : KeysNodup (updatePlanets S rng m).1 := by
  have key : (updatePlanets S rng m).1 =
      (addLoop rng S.enum
        (removeLoop (S.map (fun p => p.celestial_body_id))
          (m.map Prod.fst) m).1).1 := by
    simp [updatePlanets]
  rw [key]
  exact addLoop_keysNodup rng S.enum _
    (removeLoop_keysNodup _ (m.map Prod.fst) m hnd)

lemma updatePlanets_rels (S : List PlanetData) (rng : ℕ → ℚ) (m : PlanetMap) :
    (updatePlanets S rng m).2.1 =
      (removeLoop (S.map (fun p => p.celestial_body_id))
        (m.map Prod.fst) m).2.1 := by
  simp [updatePlanets]

/-- C1: after `updatePlanets` runs on a snapshot, the live id set equals the
snapshot id set exactly; every live id absent from the snapshot has its
removal (and so its resource release) performed exactly once, every
snapshot id not yet live has a body created, and no release event is
emitted for an id retained in the snapshot. -/
theorem reconcile_live_ids_match_snapshot
    (S : List PlanetData) (rng : ℕ → ℚ) (m : PlanetMap) (hnd : KeysNodup m) :
    (∀ id, PlanetMap.hasId (updatePlanets S rng m).1 id = true ↔
      id ∈ snapshotIds S) ∧
    (∀ id, id ∈ m.map Prod.fst → id ∉ snapshotIds S →
      ((updatePlanets S rng m).2.2.1).count id = 1) ∧
    (∀ id, id ∈ snapshotIds S → ((updatePlanets S rng m).2.2.1).count id = 0) ∧
    (∀ id mesh, (id, mesh) ∈ (updatePlanets S rng m).2.1 →
      id ∉ snapshotIds S) ∧
    (∀ id, id ∈ (updatePlanets S rng m).2.2.2 ↔
      (id ∈ snapshotIds S ∧ PlanetMap.hasId m id = false)) := by
  refine ⟨fun id => updatePlanets_live_ids S rng m hnd id, ?_, ?_, ?_,
    fun id => updatePlanets_created_mem S rng m hnd id⟩
  · intro id hkeys hnot
    rw [updatePlanets_removed]
    rw [List.count_filter (by simpa [snapshotIds] using hnot)]
    exact List.count_eq_one_of_mem hnd hkeys
  · intro id hmem
    rw [updatePlanets_removed, List.count_eq_zero]
    intro hm
    rw [List.mem_filter] at hm
    have hpred := hm.2
    simp at hpred
    simp [snapshotIds] at hmem
    obtain ⟨a, ha, hid⟩ := hmem
    exact hpred a ha hid
  · intro id mesh hmem
    rw [updatePlanets_rels] at hmem
    have h := removeLoop_rels_not_retained
      (S.map (fun p => p.celestial_body_id)) (m.map Prod.fst) m id mesh hmem
    simpa [snapshotIds] using h

/-- Witness for C1 at a concrete prior state and snapshot. -/
theorem reconcile_live_ids_match_snapshot_witness :
    KeysNodup [("A", sampleGroup)] ∧
    (PlanetMap.hasId (updatePlanets [recB] rng0 [("A", sampleGroup)]).1 "B" = true ↔
      "B" ∈ snapshotIds [recB]) :=
  ⟨by decide,
   (reconcile_live_ids_match_snapshot [recB] rng0 [("A", sampleGroup)]
     (by decide)).1 "B"⟩

lemma removeLoop_id_of_all_mem (cur : List String) :
    ∀ (ks : List String) (m : PlanetMap), (∀ k ∈ ks, k ∈ cur) →
      removeLoop cur ks m = (m, [], []) := by
  intro ks
  induction ks with
  | nil => intro m _; rfl
  | cons k ks ih =>
    intro m h
    have hk : k ∈ cur := h k (List.mem_cons_self k ks)
    rw [show removeLoop cur (k :: ks) m = removeLoop cur ks m by
      simp [removeLoop, hk]]
    exact ih m (fun x hx => h x (List.mem_cons_of_mem k hx))

lemma addLoop_id_of_all_has (rng : ℕ → ℚ) :
    ∀ (l : List (ℕ × PlanetData)) (m : PlanetMap),
      (∀ e ∈ l, PlanetMap.hasId m e.2.celestial_body_id = true) →
      addLoop rng l m = (m, []) := by
  intro l
  induction l with
  | nil => intro m _; rfl
  | cons p rest ih =>
    obtain ⟨i, d⟩ := p
    intro m h
    have hd : PlanetMap.hasId m d.celestial_body_id = true :=
      h (i, d) (List.mem_cons_self _ rest)
    rw [show addLoop rng ((i, d) :: rest) m = addLoop rng rest m by
      simp [addLoop, hd]]
    exact ih m (fun x hx => h x (List.mem_cons_of_mem _ hx))

/-- C5: reconciling with a snapshot whose id set equals the live id set
creates no body, disposes no body, and leaves the live mapping unchanged. -/
theorem reconcile_idempotent (S : List PlanetData) (rng : ℕ → ℚ) (m : PlanetMap)
    (h1 : ∀ k ∈ m.map Prod.fst, k ∈ snapshotIds S)
    (h2 : ∀ k ∈ snapshotIds S, k ∈ m.map Prod.fst) :
    updatePlanets S rng m = (m, [], [], []) := by
  have hrem : removeLoop (S.map (fun p => p.celestial_body_id))
      (m.map Prod.fst) m = (m, [], []) :=
    removeLoop_id_of_all_mem _ _ m (fun k hk => h1 k hk)
  have hadd : addLoop rng S.enum m = (m, []) := by
    apply addLoop_id_of_all_has
    intro e he
    have hmem : e.2.celestial_body_id ∈ snapshotIds S :=
      List.mem_map_of_mem _ (List.snd_mem_of_mem_enum he)
    exact (hasId_iff_mem_keys m _).mpr (h2 _ hmem)
  simp [updatePlanets, hrem, hadd]

/-- Witness for C5 on a concrete state whose ids equal the snapshot's. -/
theorem reconcile_idempotent_witness :
    (∀ k ∈ ([("A", sampleGroup)] : PlanetMap).map Prod.fst,
      k ∈ snapshotIds [recA]) ∧
    updatePlanets [recA] rng0 [("A", sampleGroup)] =
      ([("A", sampleGroup)], [], [], []) :=
  ⟨by decide,
   reconcile_idempotent [recA] rng0 [("A", sampleGroup)] (by decide) (by decide)⟩

lemma hasId_false_of_sublist (m1 m : PlanetMap) (hsub : List.Sublist m1 m)
    (id : String) (h : PlanetMap.hasId m id = false) :
    PlanetMap.hasId m1 id = false := by
  rw [← Bool.not_eq_true] at h ⊢
  intro h1
  apply h
  rw [hasId_iff_mem_keys] at h1 ⊢
  exact (List.Sublist.map Prod.fst hsub).subset h1

lemma updatePlanets_getId_new (S : List PlanetData) (rng : ℕ → ℚ)
    (m : PlanetMap) (id : String) (i : ℕ) (d : PlanetData)
    (hm : PlanetMap.hasId m id = false)
    (hf : S.enum.find? (fun e => e.2.celestial_body_id == id) = some (i, d)) :
    PlanetMap.getId (updatePlanets S rng m).1 id =
      some (createPlanet d i (rng i)) := by
  have key : (updatePlanets S rng m).1 =
      (addLoop rng S.enum
        (removeLoop (S.map (fun p => p.celestial_body_id))
          (m.map Prod.fst) m).1).1 := by
    simp [updatePlanets]
  rw [key]
  exact addLoop_getId_new rng id S.enum _ i d
    (hasId_false_of_sublist _ m (removeLoop_fst_sublist _ _ m) id hm) hf

/-- C4: a body is created with `orbitalRadius = 15 + index · 8` (base
radius 15, radius step 8) where `index` is the record's position in the
snapshot current at creation time; in particular two fresh bodies at
indices 0 and 1 get radii exactly one radius step apart. -/
theorem orbitalRadius_linear_in_index :
    (∀ (data : PlanetData) (index : ℕ) (rnd : ℚ),
      (createPlanet data index rnd).orbitalRadius = 15 + (index : ℚ) * 8) ∧
    (∀ (S : List PlanetData) (rng : ℕ → ℚ) (m : PlanetMap) (id : String)
        (i : ℕ) (d : PlanetData),
      PlanetMap.hasId m id = false →
      S.enum.find? (fun e => e.2.celestial_body_id == id) = some (i, d) →
      PlanetMap.getId (updatePlanets S rng m).1 id =
        some (createPlanet d i (rng i))) ∧
    (∀ (A B : PlanetData) (rng : ℕ → ℚ),
      A.celestial_body_id ≠ B.celestial_body_id →
      ∃ gA gB,
        PlanetMap.getId (updatePlanets [A, B] rng []).1 A.celestial_body_id =
          some gA ∧
        PlanetMap.getId (updatePlanets [A, B] rng []).1 B.celestial_body_id =
          some gB ∧
        gB.orbitalRadius = gA.orbitalRadius + 8) := by
  refine ⟨fun data index rnd => rfl,
    fun S rng m id i d hm hf => updatePlanets_getId_new S rng m id i d hm hf,
    ?_⟩
  intro A B rng hAB
  have henum : ([A, B]).enum = [(0, A), (1, B)] := rfl
  have hfA : ([A, B].enum).find?
      (fun e => e.2.celestial_body_id == A.celestial_body_id) = some (0, A) := by
    rw [henum]
    exact List.find?_cons_of_pos _ (by simp)
  have hfB : ([A, B].enum).find?
      (fun e => e.2.celestial_body_id == B.celestial_body_id) = some (1, B) := by
    rw [henum]
    rw [List.find?_cons_of_neg _ (by simp [beq_eq_false_iff_ne.mpr hAB])]
    exact List.find?_cons_of_pos _ (by simp)
  refine ⟨createPlanet A 0 (rng 0), createPlanet B 1 (rng 1),
    updatePlanets_getId_new [A, B] rng [] _ 0 A rfl hfA,
    updatePlanets_getId_new [A, B] rng [] _ 1 B rfl hfB, ?_⟩
  show (15 : ℚ) + (1 : ℕ) * 8 = (15 + (0 : ℕ) * 8) + 8
  norm_num

/-- Witness for C4 on two concrete fresh records. -/
theorem orbitalRadius_linear_in_index_witness :
    recA.celestial_body_id ≠ recB.celestial_body_id ∧
    ∃ gA gB,
      PlanetMap.getId (updatePlanets [recA, recB] rng0 []).1
        recA.celestial_body_id = some gA ∧
      PlanetMap.getId (updatePlanets [recA, recB] rng0 []).1
        recB.celestial_body_id = some gB ∧
      gB.orbitalRadius = gA.orbitalRadius + 8 :=
  ⟨by decide, orbitalRadius_linear_in_index.2.2 recA recB rng0 (by decide)⟩

/-! ## The frame step and the step machine -/

lemma hoverUpdate_preserves (i : List Hit) (s : EngineState) :
    (hoverUpdate i s).planets = s.planets ∧
    (hoverUpdate i s).elapsed = s.elapsed ∧
    (hoverUpdate i s).cameraPosition = s.cameraPosition ∧
    (hoverUpdate i s).controlsTarget = s.controlsTarget ∧
    (hoverUpdate i s).targetPosition = s.targetPosition ∧
    (hoverUpdate i s).targetLookAt = s.targetLookAt := by
  rcases i with _ | ⟨⟨par⟩, tail⟩
  · exact ⟨rfl, rfl, rfl, rfl, rfl, rfl⟩
  rcases par with _ | ⟨uid, pname⟩
  · exact ⟨rfl, rfl, rfl, rfl, rfl, rfl⟩
  rcases uid with _ | id
  · exact ⟨rfl, rfl, rfl, rfl, rfl, rfl⟩
  by_cases hh : s.planets.hasId id = true <;>
    simp [hoverUpdate, hh]

lemma hoverUpdate_planets (i : List Hit) (s : EngineState) :
    (hoverUpdate i s).planets = s.planets :=
  (hoverUpdate_preserves i s).1

lemma hoverUpdate_elapsed (i : List Hit) (s : EngineState) :
    (hoverUpdate i s).elapsed = s.elapsed :=
  (hoverUpdate_preserves i s).2.1

lemma frameStep_planets (cosF sinF : ℚ → ℚ) (delta : ℚ) (hits : List Hit)
    (s : EngineState) :
    (frameStep cosF sinF delta hits s).planets =
      s.planets.map (fun e =>
        (e.1, animatePlanetGroup cosF sinF delta (s.elapsed + delta) e.2)) := by
  unfold frameStep
  rw [hoverUpdate_planets]

lemma frameStep_elapsed (cosF sinF : ℚ → ℚ) (delta : ℚ) (hits : List Hit)
    (s : EngineState) :
    (frameStep cosF sinF delta hits s).elapsed = s.elapsed + delta := by
  unfold frameStep
  rw [hoverUpdate_elapsed]

lemma getId_mapValues (m : PlanetMap) (f : PlanetGroup → PlanetGroup)
    (id : String) :
    PlanetMap.getId (m.map (fun e => (e.1, f e.2))) id =
      (PlanetMap.getId m id).map f := by
  induction m with
  | nil => rfl
  | cons e m ih =>
    by_cases h : e.1 = id
    · simp [PlanetMap.getId, List.find?_cons, beq_iff_eq.mpr h]
    · simpa [PlanetMap.getId, List.find?_cons, beq_eq_false_iff_ne.mpr h] using ih

lemma keys_mapValues (m : PlanetMap) (f : PlanetGroup → PlanetGroup) :
    (m.map (fun e => (e.1, f e.2))).map Prod.fst = m.map Prod.fst := by
  rw [List.map_map]
  rfl

lemma stepFn_keysNodup (cosF sinF : ℚ → ℚ) (st : Step) (s : EngineState)
    (hnd : KeysNodup s.planets) : KeysNodup (stepFn cosF sinF st s).planets := by
  cases st with
  | reconcile S rng => exact updatePlanets_keysNodup S rng s.planets hnd
  | frame delta hits =>
    show KeysNodup (frameStep cosF sinF delta hits s).planets
    rw [frameStep_planets]
    unfold KeysNodup
    rw [keys_mapValues]
    exact hnd

/-- C2: a live body's `orbitalRadius` and `orbitSpeed`, assigned at
creation, are never modified for as long as the body stays live, across
any sequence of reconcile calls and animation frames. -/
theorem orbital_constants_stable (cosF sinF : ℚ → ℚ) :
    ∀ (steps : List Step) (s : EngineState), KeysNodup s.planets →
      ∀ (id : String) (g : PlanetGroup),
        PlanetMap.getId s.planets id = some g →
        liveThroughout cosF sinF id steps s →
        ∃ g', PlanetMap.getId (runSteps cosF sinF steps s).planets id = some g' ∧
          g'.orbitalRadius = g.orbitalRadius ∧ g'.orbitSpeed = g.orbitSpeed := by
  intro steps
  induction steps with
  | nil => intro s _ id g hg _; exact ⟨g, hg, rfl, rfl⟩
  | cons st rest ih =>
    intro s hnd id g hg hlive
    obtain ⟨hhas, hlive'⟩ := hlive
    have hnd' : KeysNodup (stepFn cosF sinF st s).planets :=
      stepFn_keysNodup cosF sinF st s hnd
    have hstep : ∃ g1,
        PlanetMap.getId (stepFn cosF sinF st s).planets id = some g1 ∧
        g1.orbitalRadius = g.orbitalRadius ∧ g1.orbitSpeed = g.orbitSpeed := by
      cases st with
      | reconcile S rng =>
        have hm : PlanetMap.hasId s.planets id = true := by
          rw [← getId_isSome_iff_hasId, hg]
          rfl
        have hhas' : PlanetMap.hasId (updatePlanets S rng s.planets).1 id = true :=
          hhas
        have hid : id ∈ snapshotIds S :=
          (updatePlanets_live_ids S rng s.planets hnd id).mp hhas'
        refine ⟨g, ?_, rfl, rfl⟩
        show PlanetMap.getId (updatePlanets S rng s.planets).1 id = some g
        rw [updatePlanets_getId_retained S rng s.planets id hm hid, hg]
      | frame delta hits =>
        refine ⟨animatePlanetGroup cosF sinF delta (s.elapsed + delta) g,
          ?_, rfl, rfl⟩
        show PlanetMap.getId (frameStep cosF sinF delta hits s).planets id = some _
        rw [frameStep_planets, getId_mapValues, hg]
        rfl
    obtain ⟨g1, hg1, hr1, hs1⟩ := hstep
    obtain ⟨g', hg', hr', hs'⟩ := ih (stepFn cosF sinF st s) hnd' id g1 hg1 hlive'
    exact ⟨g', hg', by rw [hr', hr1], by rw [hs', hs1]⟩

/-- Witness for C2: one frame then an identity reconcile on a concrete
state leave the sample body's orbital constants unchanged. -/
theorem orbital_constants_stable_witness :
    KeysNodup sampleState.planets ∧
    ∃ g', PlanetMap.getId
        (runSteps zeroF zeroF [Step.frame 1 [], Step.reconcile [recA] rng0]
          sampleState).planets "A" = some g' ∧
      g'.orbitalRadius = sampleGroup.orbitalRadius ∧
      g'.orbitSpeed = sampleGroup.orbitSpeed :=
  ⟨by decide,
   orbital_constants_stable zeroF zeroF
     [Step.frame 1 [], Step.reconcile [recA] rng0] sampleState (by decide)
     "A" sampleGroup rfl ⟨by decide, by decide, trivial⟩⟩

/-! ## Orbital positions as a direct function of elapsed time -/

lemma runFrames_planets (cosF sinF : ℚ → ℚ) :
    ∀ (ds : List ℚ) (s : EngineState), ds ≠ [] →
      (runFrames cosF sinF ds s).planets =
        s.planets.map (fun e => (e.1,
          { e.2 with
            rotationY := e.2.rotationY + ds.sum * (1/2)
            position := posFormula cosF sinF (s.elapsed + ds.sum) e.2 })) := by
  intro ds
  induction ds with
  | nil => intro s h; exact absurd rfl h
  | cons d ds ih =>
    intro s _
    by_cases hds : ds = []
    · subst hds
      rw [show runFrames cosF sinF [d] s = frameStep cosF sinF d [] s from rfl]
      rw [frameStep_planets]
      apply List.map_congr_left
      intro e _
      simp [animatePlanetGroup, posFormula]
    · rw [show runFrames cosF sinF (d :: ds) s =
          runFrames cosF sinF ds (frameStep cosF sinF d [] s) from rfl]
      rw [ih (frameStep cosF sinF d [] s) hds]
      rw [frameStep_planets, frameStep_elapsed, List.map_map]
      apply List.map_congr_left
      intro e _
      have hrot : e.2.rotationY + d * (1/2) + ds.sum * (1/2) =
          e.2.rotationY + (d :: ds).sum * (1/2) := by
        rw [List.sum_cons]
        ring
      have harg : s.elapsed + d + ds.sum = s.elapsed + (d :: ds).sum := by
        rw [List.sum_cons]
        ring
      show (e.1, { e.2 with
          rotationY := e.2.rotationY + d * (1/2) + ds.sum * (1/2)
          position := posFormula cosF sinF (s.elapsed + d + ds.sum) e.2 }) = _
      rw [hrot, harg]

/-- C3: on each frame every live body's position is set to
`(cos(t·orbitSpeed)·orbitalRadius, 0, sin(t·orbitSpeed)·orbitalRadius)`
where `t` is total elapsed time, so the positions after any run of frames
depend only on the total elapsed time and not on how it was split into
frame intervals. -/
theorem position_depends_only_on_elapsed (cosF sinF : ℚ → ℚ) :
    (∀ (delta : ℚ) (hits : List Hit) (s : EngineState) (id : String)
        (g' : PlanetGroup),
      PlanetMap.getId (frameStep cosF sinF delta hits s).planets id = some g' →
      g'.position = posFormula cosF sinF (s.elapsed + delta) g') ∧
    (∀ (ds1 ds2 : List ℚ) (s : EngineState),
      ds1 ≠ [] → ds2 ≠ [] → ds1.sum = ds2.sum →
      (runFrames cosF sinF ds1 s).planets.map (fun e => (e.1, e.2.position)) =
        (runFrames cosF sinF ds2 s).planets.map (fun e => (e.1, e.2.position))) := by
  constructor
  · intro delta hits s id g' hg'
    rw [frameStep_planets, getId_mapValues] at hg'
    cases hg0 : PlanetMap.getId s.planets id with
    | none => rw [hg0] at hg'; simp at hg'
    | some g0 =>
      rw [hg0] at hg'
      simp at hg'
      subst hg'
      rfl
  · intro ds1 ds2 s h1 h2 hsum
    rw [runFrames_planets cosF sinF ds1 s h1, runFrames_planets cosF sinF ds2 s h2,
      List.map_map, List.map_map, hsum]

/-- Witness for C3: splitting three time units as 1+2 or as 3 frames of one
unit yields identical positions on the sample state. -/
theorem position_depends_only_on_elapsed_witness :
    ([(1 : ℚ), 2].sum = [(1 : ℚ), 1, 1].sum) ∧
    (runFrames zeroF zeroF [(1 : ℚ), 2] sampleState).planets.map
        (fun e => (e.1, e.2.position)) =
      (runFrames zeroF zeroF [(1 : ℚ), 1, 1] sampleState).planets.map
        (fun e => (e.1, e.2.position)) :=
  ⟨by norm_num,
   (position_depends_only_on_elapsed zeroF zeroF).2 [(1 : ℚ), 2] [(1 : ℚ), 1, 1]
     sampleState (by simp) (by simp) (by norm_num)⟩

/-! ## Camera interpolation -/

lemma distSq_lerp (a v : Vec3) :
    Vec3.distSq (a.lerp v (1/20)) v = (361/400) * Vec3.distSq a v := by
  unfold Vec3.lerp Vec3.distSq
  ring

lemma distSq_nonneg (a v : Vec3) : 0 ≤ Vec3.distSq a v := by
  unfold Vec3.distSq
  positivity

lemma frameStep_camera (cosF sinF : ℚ → ℚ) (delta : ℚ) (hits : List Hit)
    (s : EngineState) :
    (frameStep cosF sinF delta hits s).cameraPosition =
        s.cameraPosition.lerp s.targetPosition (1/20) ∧
    (frameStep cosF sinF delta hits s).controlsTarget =
        s.controlsTarget.lerp s.targetLookAt (1/20) ∧
    (frameStep cosF sinF delta hits s).targetPosition = s.targetPosition ∧
    (frameStep cosF sinF delta hits s).targetLookAt = s.targetLookAt := by
  unfold frameStep
  exact ⟨(hoverUpdate_preserves _ _).2.2.1, (hoverUpdate_preserves _ _).2.2.2.1,
    (hoverUpdate_preserves _ _).2.2.2.2.1, (hoverUpdate_preserves _ _).2.2.2.2.2⟩

lemma poseDistSq_frameStep (cosF sinF : ℚ → ℚ) (delta : ℚ) (hits : List Hit)
    (s : EngineState) :
    poseDistSq (frameStep cosF sinF delta hits s) = (361/400) * poseDistSq s := by
  obtain ⟨h1, h2, h3, h4⟩ := frameStep_camera cosF sinF delta hits s
  unfold poseDistSq
  rw [h1, h2, h3, h4, distSq_lerp, distSq_lerp]
  ring

lemma poseDistSq_nonneg (s : EngineState) : 0 ≤ poseDistSq s :=
  add_nonneg (distSq_nonneg _ _) (distSq_nonneg _ _)

lemma lerp_between (a t : ℚ) :
    min a t ≤ a + (t - a) * (1/20) ∧ a + (t - a) * (1/20) ≤ max a t := by
  rcases le_total a t with h | h
  · rw [min_eq_left h, max_eq_right h]
    constructor <;> nlinarith
  · rw [min_eq_right h, max_eq_left h]
    constructor <;> nlinarith

lemma poseDistSq_runFrameSteps (cosF sinF : ℚ → ℚ) :
    ∀ (ps : List (ℚ × List Hit)) (s : EngineState),
      poseDistSq (runSteps cosF sinF (ps.map (fun p => Step.frame p.1 p.2)) s) =
        (361/400) ^ ps.length * poseDistSq s := by
  intro ps
  induction ps with
  | nil => intro s; simp [runSteps]
  | cons p ps ih =>
    intro s
    rw [show runSteps cosF sinF ((p :: ps).map (fun p => Step.frame p.1 p.2)) s =
        runSteps cosF sinF (ps.map (fun p => Step.frame p.1 p.2))
          (frameStep cosF sinF p.1 p.2 s) from rfl]
    rw [ih, poseDistSq_frameStep]
    rw [List.length_cons, pow_succ]
    ring

/-- C6: with the commanded pose fixed, each frame's camera interpolation
(`lerp` with the fixed factor 0.05, independent of `dt`) contracts the
squared pose distance by exactly `(19/20)²`, strictly decreases it whenever
the current pose differs from the commanded one, never moves any coordinate
past the commanded value, and drives the pose distance below any positive
bound after enough frames. -/
theorem camera_monotone_convergence (cosF sinF : ℚ → ℚ) :
    (∀ (delta : ℚ) (hits : List Hit) (s : EngineState),
      (frameStep cosF sinF delta hits s).targetPosition = s.targetPosition ∧
      (frameStep cosF sinF delta hits s).targetLookAt = s.targetLookAt ∧
      poseDistSq (frameStep cosF sinF delta hits s) =
        (361/400) * poseDistSq s) ∧
    (∀ (delta : ℚ) (hits : List Hit) (s : EngineState),
      poseDistSq s ≠ 0 →
      poseDistSq (frameStep cosF sinF delta hits s) < poseDistSq s) ∧
    (∀ (delta : ℚ) (hits : List Hit) (s : EngineState),
      betweenQ s.cameraPosition.x
        (frameStep cosF sinF delta hits s).cameraPosition.x s.targetPosition.x ∧
      betweenQ s.cameraPosition.y
        (frameStep cosF sinF delta hits s).cameraPosition.y s.targetPosition.y ∧
      betweenQ s.cameraPosition.z
        (frameStep cosF sinF delta hits s).cameraPosition.z s.targetPosition.z ∧
      betweenQ s.controlsTarget.x
        (frameStep cosF sinF delta hits s).controlsTarget.x s.targetLookAt.x ∧
      betweenQ s.controlsTarget.y
        (frameStep cosF sinF delta hits s).controlsTarget.y s.targetLookAt.y ∧
      betweenQ s.controlsTarget.z
        (frameStep cosF sinF delta hits s).controlsTarget.z s.targetLookAt.z) ∧
    (∀ (ps : List (ℚ × List Hit)) (s : EngineState),
      poseDistSq (runSteps cosF sinF (ps.map (fun p => Step.frame p.1 p.2)) s) =
        (361/400) ^ ps.length * poseDistSq s) ∧
    (∀ (s : EngineState) (ε : ℚ), 0 < ε → ∃ n : ℕ,
      ∀ (ps : List (ℚ × List Hit)), n ≤ ps.length →
        poseDistSq
          (runSteps cosF sinF (ps.map (fun p => Step.frame p.1 p.2)) s) < ε) := by
  refine ⟨?_, ?_, ?_, poseDistSq_runFrameSteps cosF sinF, ?_⟩
  · intro delta hits s
    obtain ⟨_, _, h3, h4⟩ := frameStep_camera cosF sinF delta hits s
    exact ⟨h3, h4, poseDistSq_frameStep cosF sinF delta hits s⟩
  · intro delta hits s hne
    rw [poseDistSq_frameStep]
    have hpos : 0 < poseDistSq s := lt_of_le_of_ne (poseDistSq_nonneg s)
      (fun h => hne h.symm)
    nlinarith
  · intro delta hits s
    obtain ⟨h1, h2, _, _⟩ := frameStep_camera cosF sinF delta hits s
    rw [h1, h2]
    exact ⟨lerp_between _ _, lerp_between _ _, lerp_between _ _,
      lerp_between _ _, lerp_between _ _, lerp_between _ _⟩
  · intro s ε hε
    rcases eq_or_lt_of_le (poseDistSq_nonneg s) with hD | hD
    · exact ⟨0, fun ps _ => by
        rw [poseDistSq_runFrameSteps, ← hD, mul_zero]
        exact hε⟩
    · obtain ⟨n, hn⟩ := exists_pow_lt_of_lt_one (div_pos hε hD)
        (show (361/400 : ℚ) < 1 by norm_num)
      refine ⟨n, fun ps hlen => ?_⟩
      rw [poseDistSq_runFrameSteps]
      have hle : (361/400 : ℚ) ^ ps.length ≤ (361/400 : ℚ) ^ n :=
        pow_le_pow_of_le_one (by norm_num) (by norm_num) hlen
      have hlt : (361/400 : ℚ) ^ n * poseDistSq s < ε :=
        (lt_div_iff₀ hD).mp hn
      calc (361/400 : ℚ) ^ ps.length * poseDistSq s
          ≤ (361/400 : ℚ) ^ n * poseDistSq s :=
            mul_le_mul_of_nonneg_right hle (le_of_lt hD)
        _ < ε := hlt

/-- Witness for C6 on the sample state, whose camera pose differs from the
commanded pose. -/
theorem camera_monotone_convergence_witness :
    poseDistSq sampleState ≠ 0 ∧
    poseDistSq (frameStep zeroF zeroF 1 [] sampleState) <
      poseDistSq sampleState ∧
    (0 : ℚ) < 1 ∧
    ∃ n : ℕ, ∀ (ps : List (ℚ × List Hit)), n ≤ ps.length →
      poseDistSq (runSteps zeroF zeroF (ps.map (fun p => Step.frame p.1 p.2))
        sampleState) < 1 := by
  have hne : poseDistSq sampleState ≠ 0 := by
    norm_num [poseDistSq, Vec3.distSq, sampleState]
  exact ⟨hne,
    (camera_monotone_convergence zeroF zeroF).2.1 1 [] sampleState hne,
    zero_lt_one,
    (camera_monotone_convergence zeroF zeroF).2.2.2.2 sampleState 1 zero_lt_one⟩

/-! ## The entity fragment program -/

/-- C7: in the entity fragment program, state 0 (idle) selects the idle
palette and a pulse factor identically 1 — multiplying by it leaves any
color unchanged — while state 2 (speaking) selects the speaking palette
and a pulse of `1 + sin(8t)·0.15`, which stays inside `[0.85, 1.15]`
whenever the sine sample lies in `[-1, 1]`. -/
theorem entity_palette_and_pulse (sinF : ℚ → ℚ) (powF : ℚ → ℚ → ℚ)
    (tex : ℚ → ℚ) (uTime : ℚ) (dotNV : ℚ) (vUv : ℚ × ℚ) :
    ((entityFrag sinF powF tex uTime 0 dotNV vUv).baseColor =
        ⟨1/10, 5/10, 1⟩ ∧
      (entityFrag sinF powF tex uTime 0 dotNV vUv).pulse = 1 ∧
      ∀ v : Vec3,
        v.smul (entityFrag sinF powF tex uTime 0 dotNV vUv).pulse = v) ∧
    ((entityFrag sinF powF tex uTime 2 dotNV vUv).baseColor =
        ⟨2/10, 1, 5/10⟩ ∧
      (entityFrag sinF powF tex uTime 2 dotNV vUv).pulse =
        1 + sinF (uTime * 8) * (15/100)) ∧
    (-1 ≤ sinF (uTime * 8) → sinF (uTime * 8) ≤ 1 →
      85/100 ≤ (entityFrag sinF powF tex uTime 2 dotNV vUv).pulse ∧
      (entityFrag sinF powF tex uTime 2 dotNV vUv).pulse ≤ 115/100) := by
  have hpulse0 : (entityFrag sinF powF tex uTime 0 dotNV vUv).pulse = 1 := rfl
  have hpulse2 : (entityFrag sinF powF tex uTime 2 dotNV vUv).pulse =
      1 + sinF (uTime * 8) * (15/100) := rfl
  refine ⟨⟨rfl, hpulse0, ?_⟩, ⟨rfl, hpulse2⟩, ?_⟩
  · intro v
    rw [hpulse0]
    cases v
    simp [Vec3.smul]
  · intro h1 h2
    rw [hpulse2]
    constructor <;> nlinarith

/-- Witness for C7 with a zero sine oracle (whose sample lies in
`[-1, 1]`). -/
theorem entity_palette_and_pulse_witness :
    (-1 ≤ zeroF ((0 : ℚ) * 8) ∧ zeroF ((0 : ℚ) * 8) ≤ 1) ∧
    (85/100 ≤ (entityFrag zeroF (fun a _ => a) (fun _ => 0) 0 2 0 (0, 0)).pulse ∧
     (entityFrag zeroF (fun a _ => a) (fun _ => 0) 0 2 0 (0, 0)).pulse ≤
       115/100) := by
  have hlo : (-1 : ℚ) ≤ zeroF ((0 : ℚ) * 8) := by norm_num [zeroF]
  have hhi : zeroF ((0 : ℚ) * 8) ≤ 1 := by norm_num [zeroF]
  exact ⟨⟨hlo, hhi⟩,
    (entity_palette_and_pulse zeroF (fun a _ => a) (fun _ => 0) 0 0
      (0, 0)).2.2 hlo hhi⟩

/-! ## Teardown ordering -/

lemma traverseList_append (l1 l2 : List SceneNode) :
    traverseList (l1 ++ l2) = traverseList l1 ++ traverseList l2 := by
  induction l1 with
  | nil => rfl
  | cons n l1 ih => simp [traverseList, ih, List.append_assoc]

lemma traverseList_meshes (pre : String) :
    ∀ (cs : List MeshNode),
      traverseList (cs.map (fun c =>
        SceneNode.node (pre ++ "/" ++ meshKindName c.kind) NodeClass.mesh [])) =
      cs.flatMap (fun c =>
        [TeardownEvent.disposeGeometry (pre ++ "/" ++ meshKindName c.kind),
         TeardownEvent.disposeMaterial (pre ++ "/" ++ meshKindName c.kind)]) := by
  intro cs
  induction cs with
  | nil => rfl
  | cons c cs ih => simp [traverseList, traverseNode, disposeNodeEvents, ih]

lemma traverseNode_planetGroup (g : PlanetGroup) :
    traverseNode (planetGroupNode g) =
      g.children.flatMap (fun c =>
        [TeardownEvent.disposeGeometry (g.id ++ "/" ++ meshKindName c.kind),
         TeardownEvent.disposeMaterial (g.id ++ "/" ++ meshKindName c.kind)]) := by
  unfold planetGroupNode traverseNode disposeNodeEvents
  rw [traverseList_meshes]
  rfl

lemma traverseList_planets :
    ∀ (planets : PlanetMap),
      traverseList (planets.map (fun e => planetGroupNode e.2)) =
        planets.flatMap (fun e =>
          e.2.children.flatMap (fun c =>
            [TeardownEvent.disposeGeometry (e.2.id ++ "/" ++ meshKindName c.kind),
             TeardownEvent.disposeMaterial
               (e.2.id ++ "/" ++ meshKindName c.kind)])) := by
  intro planets
  induction planets with
  | nil => rfl
  | cons e planets ih =>
    simp only [List.map_cons, List.flatMap_cons, traverseList]
    rw [traverseNode_planetGroup, ih]

/-- C8 counterexample: on a fully-initialized component, the first
teardown action is removing the window resize listener, not cancelling the
scheduled frame callback as the claimed order demands. -/
theorem teardown_first_step_not_cancelFrame :
    (disconnectedCallbackEvents
        ⟨some 1, true, true, some [("A", sampleGroup)], true⟩).head? ≠
      some TeardownEvent.cancelFrame := by
  decide

/-- C8 (amended): `disconnectedCallback` performs, in order: remove the
resize listener, remove the pointermove and click listeners, cancel the
scheduled frame callback, stop the audio tracks, close the audio context,
dispose the controls, dispose geometry and material of every
`Mesh`/`LineSegments` in scene insertion order (star, AI entity and
neural-network decoration before the live bodies' meshes; the starfield
`Points` object is skipped by the type-filtered traversal), and finally
dispose the renderer. -/
theorem teardown_event_order (n : ℕ) (planets : PlanetMap) :
    disconnectedCallbackEvents ⟨some n, true, true, some planets, true⟩ =
      [TeardownEvent.removeResizeListener,
       TeardownEvent.removePointerMoveListener,
       TeardownEvent.removeClickListener,
       TeardownEvent.cancelFrame] ++
      List.replicate n TeardownEvent.stopAudioTrack ++
      [TeardownEvent.closeAudioContext,
       TeardownEvent.disposeControls,
       TeardownEvent.disposeGeometry "star",
       TeardownEvent.disposeMaterial "star",
       TeardownEvent.disposeGeometry "aiEntity",
       TeardownEvent.disposeMaterial "aiEntity",
       TeardownEvent.disposeGeometry "neuralNetwork",
       TeardownEvent.disposeMaterial "neuralNetwork"] ++
      planets.flatMap (fun e =>
        e.2.children.flatMap (fun c =>
          [TeardownEvent.disposeGeometry (e.2.id ++ "/" ++ meshKindName c.kind),
           TeardownEvent.disposeMaterial
             (e.2.id ++ "/" ++ meshKindName c.kind)])) ++
      [TeardownEvent.disposeRenderer] := by
  unfold disconnectedCallbackEvents sceneChildren
  dsimp only
  rw [traverseList_append, traverseList_planets]
  simp [traverseList, traverseNode, disposeNodeEvents]

/-! ## Hover and selection -/

lemma hoverUpdate_hoveredId_live (intersects : List Hit) (s : EngineState)
    (id : String)
    (h : (hoverUpdate intersects s).hoveredPlanetId = some id) :
    PlanetMap.hasId s.planets id = true := by
  rcases intersects with _ | ⟨⟨par⟩, tail⟩
  · simp [hoverUpdate] at h
  rcases par with _ | ⟨uid, pname⟩
  · simp [hoverUpdate] at h
  rcases uid with _ | j
  · simp [hoverUpdate] at h
  by_cases hh : PlanetMap.hasId s.planets j = true
  · have hid : j = id := by
      simp [hoverUpdate, hh] at h
      exact h
    rw [← hid]
    exact hh
  · simp [hoverUpdate, hh] at h

lemma frameStep_hoveredId_live (cosF sinF : ℚ → ℚ) (delta : ℚ)
    (hits : List Hit) (s : EngineState) (id : String)
    (h : (frameStep cosF sinF delta hits s).hoveredPlanetId = some id) :
    PlanetMap.hasId (frameStep cosF sinF delta hits s).planets id = true := by
  unfold frameStep at h ⊢
  dsimp only at h ⊢
  rw [hoverUpdate_planets]
  exact hoverUpdate_hoveredId_live hits _ id h

/-- C9: on a frame whose pointer ray intersects nothing, the hover signal
is cleared and the pointer-cursor and tooltip affordances reset; a click
dispatches a selection event exactly when a hover id is set, and the event
carries that id. -/
theorem hover_clear_and_click_emission (cosF sinF : ℚ → ℚ) :
    (∀ (delta : ℚ) (s : EngineState),
      (frameStep cosF sinF delta [] s).hoveredPlanetId = none ∧
      (frameStep cosF sinF delta [] s).cursorPointer = false ∧
      (frameStep cosF sinF delta [] s).tooltipVisible = false) ∧
    (∀ (s : EngineState) (id : String),
      onCanvasClick s = some ⟨id⟩ ↔ s.hoveredPlanetId = some id) := by
  constructor
  · intro delta s
    exact ⟨rfl, rfl, rfl⟩
  · intro s id
    cases h : s.hoveredPlanetId with
    | none => simp [onCanvasClick, h]
    | some j => simp [onCanvasClick, h, SelectionEvent.mk.injEq]

/-- C10: the frame's hit test targets exactly the live planet groups (the
star, starfield, entity and decorations are not candidates), the hover
logic only accepts ids that are live keys, and a selection event emitted
right after a frame can only carry a live body id. -/
theorem hit_test_only_live_bodies (cosF sinF : ℚ → ℚ) :
    (∀ s : EngineState, hitTestCandidates s = s.planets.map Prod.snd) ∧
    (∀ (intersects : List Hit) (s : EngineState) (id : String),
      (hoverUpdate intersects s).hoveredPlanetId = some id →
      PlanetMap.hasId s.planets id = true) ∧
    (∀ (delta : ℚ) (hits : List Hit) (s : EngineState) (id : String),
      onCanvasClick (frameStep cosF sinF delta hits s) = some ⟨id⟩ →
      PlanetMap.hasId (frameStep cosF sinF delta hits s).planets id = true) := by
  refine ⟨fun s => rfl, hoverUpdate_hoveredId_live, ?_⟩
  intro delta hits s id h
  have hhover : (frameStep cosF sinF delta hits s).hoveredPlanetId = some id := by
    unfold onCanvasClick at h
    cases hh : (frameStep cosF sinF delta hits s).hoveredPlanetId with
    | none => rw [hh] at h; simp at h
    | some j =>
      rw [hh] at h
      simp [SelectionEvent.mk.injEq] at h
      rw [h]
  exact frameStep_hoveredId_live cosF sinF delta hits s id hhover

/-- Witness for C10: a hit resolving to the sample body produces a hover
id that is live. -/
theorem hit_test_only_live_bodies_witness :
    (hoverUpdate [sampleHit] sampleState).hoveredPlanetId = some "A" ∧
    PlanetMap.hasId sampleState.planets "A" = true :=
  ⟨by decide,
   (hit_test_only_live_bodies zeroF zeroF).2.1 [sampleHit] sampleState "A"
     (by decide)⟩

end AxeeVisuals
